import Mathlib

/-!
Verification of the items/products REST validation-and-mapping layer.

Shallow embedding of `src/app.js` (items API: validators, handlers, store
operations) and the legacy products list handler (`src/unnamed/part_000`,
`part_001`).  JavaScript numbers are modelled by an inductive domain with
an explicit NaN and signed infinities; request bodies are association
lists of JSON values; the document store is an association list of
documents keyed by identifier strings.
-/

/-- The JavaScript number domain as used by the validators: a finite
rational value, NaN, or a signed infinity. -/
inductive JNum where
  | fin (q : ℚ)
  | nan
  | posInf
  | negInf
deriving DecidableEq, Repr

/-- JavaScript evaluation of `n < 0` for a number `n`
(`NaN < 0` is false, `-Infinity < 0` is true). -/
def JNum.ltZero : JNum → Bool
  | .fin q => decide (q < 0)
  | .nan => false
  | .posInf => false
  | .negInf => true

/-- Spec-side notion: a finite number (excludes NaN and the infinities). -/
def JNum.isFinite : JNum → Bool
  | .fin _ => true
  | _ => false

/-- JSON values as delivered by the body parser.  `other` stands for the
remaining JSON shapes (objects, arrays, booleans are kept separate for
typeof purposes but none of the validators distinguish inside `other`). -/
inductive JSValue where
  | str (s : String)
  | num (n : JNum)
  | jbool (b : Bool)
  | jnull
  | other
deriving DecidableEq, Repr

/-- A request body: an association list of key/JSON-value pairs
(object keys in insertion order). -/
abbrev Body := List (String × JSValue)

/-- JavaScript property access `body[k]`: `none` models `undefined`. -/
def getField (b : Body) (k : String) : Option JSValue :=
  (b.find? (fun p => p.1 == k)).map (fun p => p.2)

/-- JavaScript test `body[f] === undefined || body[f] === null ||
body[f] === ""` (the "missing" test of `validateRequiredFields`). -/
def isMissing (b : Body) (k : String) : Bool :=
  match getField b k with
  | none => true
  | some .jnull => true
  | some (.str s) => s == ""
  | some _ => false

/-- JavaScript test `typeof v === "string"` on a possibly-undefined
value. -/
def isStringV : Option JSValue → Bool
  | some (.str _) => true
  | _ => false

/-- The condition `typeof v !== "number" || Number.isNaN(v) || v < 0`:
the price-rejection condition shared by both validators. -/
def priceBad : Option JSValue → Bool
  | some (.num n) => n == .nan || n.ltZero
  | _ => true

/-- A 400-class JSON error body: the `error` message plus the optional
`missing`, `invalid` and `allowed` arrays the handlers attach. -/
structure JsonErr where
  error : String
  missing : Option (List String)
  invalid : Option (List String)
  allowed : Option (List String)
deriving DecidableEq, Repr

def nameErr : JsonErr := ⟨"Field \x27name\x27 must be a string", none, none, none⟩

def categoryErr : JsonErr := ⟨"Field \x27category\x27 must be a string", none, none, none⟩

def priceErr : JsonErr := ⟨"Field \x27price\x27 must be a non-negative number", none, none, none⟩

def descriptionErr : JsonErr := ⟨"Field \x27description\x27 must be a string", none, none, none⟩

def REQUIRED_FIELDS : List String := ["name", "price", "category"]

/-- Model of `validateRequiredFields` from `src/app.js`: `some e` models sending
the 400 response `e` and returning `false`; `none` models returning
`true`. -/
def validateRequiredFields (body : Body) : Option JsonErr :=
  let missing := REQUIRED_FIELDS.filter (fun f => isMissing body f)
  if 0 < missing.length then
    some ⟨"Missing required fields", some missing, none, none⟩
  else if !(isStringV (getField body "name")) then
    some nameErr
  else if !(isStringV (getField body "category")) then
    some categoryErr
  else if priceBad (getField body "price") then
    some priceErr
  else
    none

/-- The `allowed` list of `validatePatchFields`. -/
def PATCH_ALLOWED : List String := ["name", "price", "category", "description"]

/-- The check `body.k !== undefined && typeof body.k !== "string"`. -/
def presentNotString (body : Body) (k : String) : Bool :=
  match getField body k with
  | none => false
  | some v => !(isStringV (some v))

/-- The PATCH price check: only performed when `body.price !== undefined`. -/
def patchPriceBad (body : Body) : Bool :=
  match getField body "price" with
  | none => false
  | some v => priceBad (some v)

/-- Model of `validatePatchFields` from `src/app.js`. -/
def validatePatchFields (body : Body) : Option JsonErr :=
  let keys := body.map (fun p => p.1)
  if keys.length == 0 then
    some ⟨"PATCH body cannot be empty", none, none, none⟩
  else
    let invalid := keys.filter (fun k => !(PATCH_ALLOWED.contains k))
    if 0 < invalid.length then
      some ⟨"Invalid fields in PATCH", none, some invalid, some PATCH_ALLOWED⟩
    else if presentNotString body "name" then
      some nameErr
    else if presentNotString body "category" then
      some categoryErr
    else if patchPriceBad body then
      some priceErr
    else if presentNotString body "description" then
      some descriptionErr
    else
      none

/-- A value stored in a document: a JSON value, a timestamp (`new Date()`
readings modelled as naturals), or an object identifier. -/
inductive DocVal where
  | js (v : JSValue)
  | date (t : Nat)
  | oid (s : String)
deriving DecidableEq, Repr

/-- A stored document: association list of field/value pairs
(the `_id` field is kept separately as the store key). -/
abbrev Doc := List (String × DocVal)

def lookupDoc (d : Doc) (k : String) : Option DocVal :=
  (d.find? (fun p => p.1 == k)).map (fun p => p.2)

/-- The `items` (or `products`) collection: documents keyed by their
identifier string. -/
structure Store where
  docs : List (String × Doc)
deriving DecidableEq, Repr

/-- Model of `collection.findOne` by key: the first document with the
given key. -/
def Store.findOne (s : Store) (id : String) : Option Doc :=
  (s.docs.find? (fun p => p.1 == id)).map (fun p => p.2)

/-- Model of `collection.insertOne(doc)` with the store-generated identifier made
explicit. -/
def Store.insertOne (s : Store) (id : String) (d : Doc) : Store :=
  ⟨s.docs ++ [(id, d)]⟩

/-- One `$set` assignment: overwrite the field in place if present, else
append it (BSON document fields are unique-keyed). -/
def setField : Doc → String → DocVal → Doc
  | [], k, v => [(k, v)]
  | (k1, v1) :: rest, k, v =>
    if k1 == k then (k, v) :: rest
    else (k1, v1) :: setField rest k v

/-- Model of `$set` with an update document: apply each assignment in
order. -/
def applySet (d : Doc) (upd : Doc) : Doc :=
  upd.foldl (fun acc kv => setField acc kv.1 kv.2) d

/-- Model of `updateOne`: apply `$set` to the first matching document, returning
the new collection and the matched count. -/
def updateFirst : List (String × Doc) → String → Doc → List (String × Doc) × Nat
  | [], _, _ => ([], 0)
  | (k, d) :: rest, id, upd =>
    if k == id then
      ((k, applySet d upd) :: rest, 1)
    else
      let r := updateFirst rest id upd
      ((k, d) :: r.1, r.2)

def Store.updateOne (s : Store) (id : String) (upd : Doc) : Store × Nat :=
  let r := updateFirst s.docs id upd
  (⟨r.1⟩, r.2)

/-- Model of `deleteOne`: remove the first matching document, returning the new
collection and the deleted count. -/
def deleteFirst : List (String × Doc) → String → List (String × Doc) × Nat
  | [], _ => ([], 0)
  | (k, d) :: rest, id =>
    if k == id then
      (rest, 1)
    else
      let r := deleteFirst rest id
      ((k, d) :: r.1, r.2)

def Store.deleteOne (s : Store) (id : String) : Store × Nat :=
  let r := deleteFirst s.docs id
  (⟨r.1⟩, r.2)

def isHexChar (c : Char) : Bool :=
  c.isDigit || "abcdefABCDEF".toList.contains c

/-- Modelled external collaborator (the `ObjectId.isValid` check of the bson driver):
a string is a valid ObjectId encoding when it has length 12, or length 24
and is all hexadecimal digits. -/
def ObjectId.isValid (s : String) : Bool :=
  s.length == 12 || (s.length == 24 && s.toList.all isHexChar)

/-- The JSON shapes a handler responds with. -/
inductive RespBody where
  | errB (e : JsonErr)
  | createdB (message : String) (id : String)
  | msgB (message : String)
  | docB (d : Doc)
  | listB (count : Nat) (docs : List Doc)
  | emptyB
deriving DecidableEq, Repr

structure Response where
  status : Nat
  body : RespBody
deriving DecidableEq, Repr

/-- The persistence-gateway operations a handler may invoke, recorded in
invocation order. -/
inductive GatewayOp where
  | findAll
  | findOne (id : String)
  | insertOne
  | updateOne (id : String)
  | deleteOne (id : String)
deriving DecidableEq, Repr

/-- Outcome of one request: the response, the store afterwards, and the
gateway operations performed. -/
structure HandlerResult where
  resp : Response
  store : Store
  ops : List GatewayOp
deriving DecidableEq, Repr

def invalidIdErr : JsonErr := ⟨"Invalid item id", none, none, none⟩

def notFoundErr : JsonErr := ⟨"Item not found", none, none, none⟩

/-- The object literal `{ name, price, category }` built from destructured
body fields: keys whose destructured value is `undefined` behave exactly
like absent keys for every access the validator performs. -/
def pickFields (body : Body) (ks : List String) : Body :=
  ks.filterMap (fun k => (getField body k).map (fun v => (k, v)))

/-- The default `description ?? ""`: `null` and `undefined` become the
empty string. -/
def descOrEmpty : Option JSValue → JSValue
  | none => .str ""
  | some .jnull => .str ""
  | some v => v

/-- A document as returned by a find without projection: the stored
fields preceded by `_id`. -/
def withId (id : String) (d : Doc) : Doc :=
  ("_id", DocVal.oid id) :: d

/-- The query parameters recognised by the list endpoints. -/
structure ListQuery where
  category : Option String
  minPrice : Option String
  sort : Option String
  fields : Option String
deriving DecidableEq, Repr

/-- Handler `GET /api/items` from `src/app.js`: an unfiltered find — the query
parameters are never read, every item is returned with every field. -/
def listItems (store : Store) (_q : ListQuery) : HandlerResult :=
  let items := store.docs.map (fun p => withId p.1 p.2)
  ⟨⟨200, .listB items.length items⟩, store, [.findAll]⟩

/-- Handler `GET /api/items/:id` from `src/app.js`. -/
def getItemById (store : Store) (id : String) : HandlerResult :=
  if !(ObjectId.isValid id) then
    ⟨⟨400, .errB invalidIdErr⟩, store, []⟩
  else
    match store.findOne id with
    | none => ⟨⟨404, .errB notFoundErr⟩, store, [.findOne id]⟩
    | some d => ⟨⟨200, .docB (withId id d)⟩, store, [.findOne id]⟩

/-- Handler `POST /api/items` from `src/app.js`.  Here `now` is the clock reading for
this request (both `new Date()` calls are modelled as observing the same
millisecond); `newId` is the store-generated identifier. -/
def postItems (store : Store) (body : Body) (now : Nat) (newId : String) :
    HandlerResult :=
  match validateRequiredFields (pickFields body REQUIRED_FIELDS) with
  | some e => ⟨⟨400, .errB e⟩, store, []⟩
  | none =>
    let d : Doc :=
      [("name", .js ((getField body "name").getD .jnull)),
       ("price", .js ((getField body "price").getD .jnull)),
       ("category", .js ((getField body "category").getD .jnull)),
       ("description", .js (descOrEmpty (getField body "description"))),
       ("createdAt", .date now),
       ("updatedAt", .date now)]
    ⟨⟨201, .createdB "Item created" newId⟩, store.insertOne newId d, [.insertOne]⟩

/-- Handler `PUT /api/items/:id` from `src/app.js`. -/
def putItem (store : Store) (id : String) (body : Body) (now : Nat) :
    HandlerResult :=
  if !(ObjectId.isValid id) then
    ⟨⟨400, .errB invalidIdErr⟩, store, []⟩
  else
    match validateRequiredFields (pickFields body REQUIRED_FIELDS) with
    | some e => ⟨⟨400, .errB e⟩, store, []⟩
    | none =>
      let upd : Doc :=
        [("name", .js ((getField body "name").getD .jnull)),
         ("price", .js ((getField body "price").getD .jnull)),
         ("category", .js ((getField body "category").getD .jnull)),
         ("description", .js (descOrEmpty (getField body "description"))),
         ("updatedAt", .date now)]
      let r := store.updateOne id upd
      if r.2 == 0 then
        ⟨⟨404, .errB notFoundErr⟩, r.1, [.updateOne id]⟩
      else
        ⟨⟨200, .msgB "Item fully updated"⟩, r.1, [.updateOne id]⟩

/-- Handler `PATCH /api/items/:id` from `src/app.js`: on success the `$set`
document is the validated body with `updatedAt` appended. -/
def patchItem (store : Store) (id : String) (body : Body) (now : Nat) :
    HandlerResult :=
  if !(ObjectId.isValid id) then
    ⟨⟨400, .errB invalidIdErr⟩, store, []⟩
  else
    match validatePatchFields body with
    | some e => ⟨⟨400, .errB e⟩, store, []⟩
    | none =>
      let upd : Doc :=
        body.map (fun p => (p.1, DocVal.js p.2)) ++ [("updatedAt", .date now)]
      let r := store.updateOne id upd
      if r.2 == 0 then
        ⟨⟨404, .errB notFoundErr⟩, r.1, [.updateOne id]⟩
      else
        ⟨⟨200, .msgB "Item partially updated"⟩, r.1, [.updateOne id]⟩

/-- Handler `DELETE /api/items/:id` from `src/app.js`. -/
def deleteItem (store : Store) (id : String) : HandlerResult :=
  if !(ObjectId.isValid id) then
    ⟨⟨400, .errB invalidIdErr⟩, store, []⟩
  else
    let r := store.deleteOne id
    if r.2 == 0 then
      ⟨⟨404, .errB notFoundErr⟩, r.1, [.deleteOne id]⟩
    else
      ⟨⟨204, .emptyB⟩, r.1, [.deleteOne id]⟩

/-- Modelled external collaborator (`String.prototype.split(",")`):
split a string at every comma. -/
def splitCommaAux : List Char → List Char → List String
  | [], acc => [String.mk acc.reverse]
  | c :: cs, acc =>
    if c == ',' then String.mk acc.reverse :: splitCommaAux cs []
    else splitCommaAux cs (c :: acc)

def splitComma (s : String) : List String := splitCommaAux s.toList []

/-- Modelled external collaborator (`Number(s)` as the products handler
uses it): nonnegative decimal integer strings parse to their value, other
strings coerce to NaN.  The empty string (which `Number` maps to 0) is
unreachable here: the handler only converts truthy query values. -/
def jsNumber (s : String) : JNum :=
  if s.toList ≠ [] ∧ s.toList.all Char.isDigit then
    .fin ((s.toList.foldl (fun acc c => acc * 10 + (c.toNat - 48)) 0 : Nat) : ℚ)
  else .nan

/-- Truthiness of an optional query-parameter string. -/
def truthyQ : Option String → Bool
  | some s => !(s == "")
  | none => false

/-- Mongo `$gte` between number values: `numGe a b` is `a >= b` in the
BSON number order (NaN below every other number). -/
def numGe (a b : JNum) : Bool :=
  match a, b with
  | .nan, .nan => true
  | .nan, _ => false
  | _, .nan => true
  | .negInf, .negInf => true
  | .negInf, _ => false
  | _, .negInf => true
  | .posInf, _ => true
  | .fin _, .posInf => false
  | .fin x, .fin y => decide (y ≤ x)

/-- The BSON ascending number order used for `sort({price: 1})`. -/
def numLe (a b : JNum) : Bool :=
  match a, b with
  | .nan, _ => true
  | _, .nan => false
  | .negInf, _ => true
  | _, .negInf => false
  | _, .posInf => true
  | .posInf, _ => false
  | .fin x, .fin y => decide (x ≤ y)

/-- The sort key of a document under `sort({price: 1})`: its `price`
field as a number; non-number or missing prices are collapsed to NaN
(the bottom of the modelled order). -/
def priceKey (d : Doc) : JNum :=
  match lookupDoc d "price" with
  | some (.js (.num n)) => n
  | _ => .nan

/-- Comparison of two stored (id, document) pairs by price. -/
def prodPriceLe (a b : String × Doc) : Prop :=
  numLe (priceKey a.2) (priceKey b.2) = true

instance : DecidableRel prodPriceLe := fun a b => by
  unfold prodPriceLe; infer_instance

/-- The filter object built by the products list handler: an optional
exact-match term on `category` and an optional `$gte` term on `price`. -/
def matchesFilter (catF : Option String) (priceF : Option JNum) (d : Doc) :
    Bool :=
  (match catF with
   | none => true
   | some c => lookupDoc d "category" == some (.js (.str c)))
  &&
  (match priceF with
   | none => true
   | some b =>
     match lookupDoc d "price" with
     | some (.js (.num n)) => numGe n b
     | _ => false)

/-- The inclusion projection `{_id: 0, f: 1, ...}` built from a `fields`
list: the identifier is kept only if `_id` itself is listed (the later
`projection[field] = 1` assignment overwrites `projection._id = 0`). -/
def projectDoc (fieldsArray : List String) (id : String) (d : Doc) : Doc :=
  (if fieldsArray.contains "_id" then [("_id", DocVal.oid id)] else [])
  ++ d.filter (fun p => fieldsArray.contains p.1)

/-- Handler `GET /api/products` from the legacy variants: build filter, sort
option and projection from the query, then
`find(filter, {projection}).sort(sortOption).toArray()`. -/
def getProducts (store : Store) (q : ListQuery) : HandlerResult :=
  let catF : Option String := if truthyQ q.category then q.category else none
  let priceF : Option JNum :=
    if truthyQ q.minPrice then some (jsNumber (q.minPrice.getD "")) else none
  let flt := store.docs.filter (fun p => matchesFilter catF priceF p.2)
  let srt := if q.sort == some "price" then List.insertionSort prodPriceLe flt
             else flt
  let res :=
    if truthyQ q.fields then
      let fieldsArray := splitComma (q.fields.getD "")
      srt.map (fun p => projectDoc fieldsArray p.1 p.2)
    else
      srt.map (fun p => withId p.1 p.2)
  ⟨⟨200, .listB res.length res⟩, store, [.findAll]⟩

/-- Spec-side acceptance predicate for a submitted price value: a number
that is not NaN and not negative under the JavaScript comparison
(note this does not require finiteness). -/
def priceAcceptable (v : JSValue) : Prop :=
  ∃ n, v = JSValue.num n ∧ n ≠ JNum.nan ∧ JNum.ltZero n = false

/-! Concrete fixtures used by the witness theorems. -/

def bodyW : Body :=
  [("name", .str "Widget"), ("price", .num (.fin 3)), ("category", .str "tools")]

def docB1 : Doc :=
  [("name", DocVal.js (.str "b")), ("price", DocVal.js (.num (.fin 5))),
   ("category", DocVal.js (.str "t"))]

def docB2 : Doc :=
  [("name", DocVal.js (.str "a")), ("price", DocVal.js (.num (.fin 15))),
   ("category", DocVal.js (.str "t"))]

def docB3 : Doc :=
  [("name", DocVal.js (.str "c")), ("price", DocVal.js (.num (.fin 12))),
   ("category", DocVal.js (.str "u"))]

def storeP : Store :=
  ⟨[("aaaaaaaaaaaa", docB1), ("bbbbbbbbbbbb", docB2), ("cccccccccccc", docB3)]⟩

def storeA : Store := ⟨[("aaaaaaaaaaaa", docB1)]⟩

/-! Helper lemmas about the store operations. -/

theorem lookupDoc_setField_self (d : Doc) (k : String) (v : DocVal) :
    lookupDoc (setField d k v) k = some v := by
  induction d with
  | nil => simp [setField, lookupDoc]
  | cons hd tl ih =>
    obtain ⟨k1, v1⟩ := hd
    by_cases h : (k1 == k) = true
    · simp [setField, h, lookupDoc]
    · simp only [setField, h, if_false, Bool.false_eq_true, if_neg]
      simpa [lookupDoc, List.find?_cons, h] using ih

theorem lookupDoc_setField_ne (d : Doc) (k k' : String) (v : DocVal)
    (h : k' ≠ k) :
    lookupDoc (setField d k v) k' = lookupDoc d k' := by
  have hke : (k == k') = false := by
    simpa using fun hc => h (by simpa using hc.symm)
  induction d with
  | nil => simp [setField, lookupDoc, hke]
  | cons hd tl ih =>
    obtain ⟨k1, v1⟩ := hd
    by_cases h1 : (k1 == k) = true
    · have h1e : k1 = k := by simpa using h1
      simp [setField, h1, lookupDoc, List.find?_cons, hke, h1e]
    · by_cases h2 : (k1 == k') = true
      · simp [setField, h1, lookupDoc, List.find?_cons, h2]
      · simpa [setField, h1, lookupDoc, List.find?_cons, h2] using ih

theorem mem_keys_setField (d : Doc) (k a : String) (v : DocVal) :
    a ∈ (setField d k v).map Prod.fst → a ∈ d.map Prod.fst ∨ a = k := by
  induction d with
  | nil =>
    intro h
    simp only [setField, List.map_cons, List.map_nil, List.mem_singleton] at h
    exact Or.inr h
  | cons hd tl ih =>
    intro h
    obtain ⟨k1, v1⟩ := hd
    by_cases h1 : (k1 == k) = true
    · have h1e : k1 = k := by simpa using h1
      simp only [setField, h1, if_true, List.map_cons, List.mem_cons] at h
      rcases h with h | h
      · exact Or.inr h
      · exact Or.inl (by simp only [List.map_cons, List.mem_cons]; exact Or.inr h)
    · simp only [setField, h1, Bool.false_eq_true, if_false, List.map_cons,
        List.mem_cons] at h
      rcases h with h | h
      · exact Or.inl (by simp only [List.map_cons, List.mem_cons]; exact Or.inl h)
      · rcases ih h with h' | h'
        · exact Or.inl (by simp only [List.map_cons, List.mem_cons]; exact Or.inr h')
        · exact Or.inr h'

theorem applySet_nil (d : Doc) : applySet d [] = d := rfl

theorem applySet_cons (d : Doc) (kv : String × DocVal) (u : Doc) :
    applySet d (kv :: u) = applySet (setField d kv.1 kv.2) u := rfl

theorem applySet_append (d u1 u2 : Doc) :
    applySet d (u1 ++ u2) = applySet (applySet d u1) u2 :=
  List.foldl_append _ _ _ _

theorem lookupDoc_applySet_not_mem (u : Doc) (k : String) :
    ∀ d : Doc, (∀ kv ∈ u, kv.1 ≠ k) →
      lookupDoc (applySet d u) k = lookupDoc d k := by
  induction u with
  | nil => intro d _; rfl
  | cons hd tl ih =>
    intro d h
    rw [applySet_cons, ih _ (fun kv hkv => h kv (List.mem_cons_of_mem _ hkv))]
    exact lookupDoc_setField_ne _ _ _ _ (Ne.symm (h hd (List.mem_cons_self _ _)))

theorem mem_keys_applySet (u : Doc) (a : String) :
    ∀ d : Doc, a ∈ (applySet d u).map Prod.fst →
      a ∈ d.map Prod.fst ∨ a ∈ u.map Prod.fst := by
  induction u with
  | nil => intro d h; exact Or.inl h
  | cons hd tl ih =>
    intro d h
    rw [applySet_cons] at h
    rcases ih _ h with h' | h'
    · rcases mem_keys_setField _ _ _ _ h' with h2 | h2
      · exact Or.inl h2
      · exact Or.inr (by simp [h2])
    · exact Or.inr (by simp [h'])

theorem updateFirst_matched (docs : List (String × Doc)) (id : String) (upd : Doc) :
    (updateFirst docs id upd).2 =
      if (docs.find? (fun p => p.1 == id)).isSome then 1 else 0 := by
  induction docs with
  | nil => simp [updateFirst]
  | cons hd tl ih =>
    obtain ⟨k, d⟩ := hd
    by_cases h : (k == id) = true
    · simp [updateFirst, h, List.find?_cons]
    · rw [Bool.not_eq_true] at h
      rw [List.find?_cons_of_neg _ (by simp [h])]
      simp [updateFirst, h, ih]

theorem find?_updateFirst (docs : List (String × Doc)) (id : String) (upd : Doc) :
    (updateFirst docs id upd).1.find? (fun p => p.1 == id) =
      (docs.find? (fun p => p.1 == id)).map (fun p => (p.1, applySet p.2 upd)) := by
  induction docs with
  | nil => simp [updateFirst]
  | cons hd tl ih =>
    obtain ⟨k, d⟩ := hd
    by_cases h : (k == id) = true
    · simp [updateFirst, h, List.find?_cons]
    · rw [Bool.not_eq_true] at h
      simp [updateFirst, h, List.find?_cons, ih]

theorem Store.findOne_updateOne (s : Store) (id : String) (upd : Doc) :
    (s.updateOne id upd).1.findOne id =
      (s.findOne id).map (fun d => applySet d upd) := by
  unfold Store.updateOne Store.findOne
  rw [find?_updateFirst]
  generalize s.docs.find? (fun p => p.1 == id) = o
  cases o <;> rfl

theorem Store.updateOne_matched (s : Store) (id : String) (upd : Doc) :
    (s.updateOne id upd).2 = if (s.findOne id).isSome then 1 else 0 := by
  unfold Store.updateOne Store.findOne
  rw [updateFirst_matched]
  generalize s.docs.find? (fun p => p.1 == id) = o
  cases o <;> rfl

theorem deleteFirst_count (docs : List (String × Doc)) (id : String) :
    (deleteFirst docs id).2 =
      if (docs.find? (fun p => p.1 == id)).isSome then 1 else 0 := by
  induction docs with
  | nil => simp [deleteFirst]
  | cons hd tl ih =>
    obtain ⟨k, d⟩ := hd
    by_cases h : (k == id) = true
    · simp [deleteFirst, h, List.find?_cons]
    · rw [Bool.not_eq_true] at h
      rw [List.find?_cons_of_neg _ (by simp [h])]
      simp [deleteFirst, h, ih]

theorem Store.deleteOne_count (s : Store) (id : String) :
    (s.deleteOne id).2 = if (s.findOne id).isSome then 1 else 0 := by
  unfold Store.deleteOne Store.findOne
  rw [deleteFirst_count]
  generalize s.docs.find? (fun p => p.1 == id) = o
  cases o <;> rfl

theorem find?_deleteFirst_nodup (docs : List (String × Doc)) (id : String)
    (h : (docs.map Prod.fst).Nodup) :
    (deleteFirst docs id).1.find? (fun p => p.1 == id) = none := by
  induction docs with
  | nil => simp [deleteFirst]
  | cons hd tl ih =>
    obtain ⟨k, d⟩ := hd
    simp only [List.map_cons, List.nodup_cons] at h
    by_cases hk : (k == id) = true
    · have hke : k = id := by simpa using hk
      simp only [deleteFirst, hk, if_true]
      refine List.find?_eq_none.mpr (fun x hx hpx => ?_)
      have : x.1 = id := by simpa using hpx
      exact h.1 (by subst hke; rw [← this]; exact List.mem_map_of_mem _ hx)
    · simp only [deleteFirst, hk, Bool.false_eq_true, if_false]
      rw [List.find?_cons]
      simp only [hk]
      exact ih h.2

theorem Store.findOne_deleteOne_nodup (s : Store) (id : String)
    (h : (s.docs.map Prod.fst).Nodup) :
    (s.deleteOne id).1.findOne id = none := by
  unfold Store.deleteOne Store.findOne
  rw [find?_deleteFirst_nodup s.docs id h]
  rfl

theorem findOne_insertOne_fresh (s : Store) (id : String) (d : Doc)
    (h : s.findOne id = none) :
    (s.insertOne id d).findOne id = some d := by
  have hfind : s.docs.find? (fun p => p.1 == id) = none := by
    unfold Store.findOne at h
    cases hf : s.docs.find? (fun p => p.1 == id)
    · rfl
    · rw [hf] at h; simp at h
  unfold Store.insertOne Store.findOne
  rw [List.find?_append, hfind]
  simp [List.find?_cons]

/-! Helper lemmas about bodies and the validators. -/

theorem getField_append_ne (body : Body) (k f : String) (v : JSValue)
    (h : f ≠ k) :
    getField (body ++ [(k, v)]) f = getField body f := by
  unfold getField
  rw [List.find?_append]
  have hk : ([((k, v) : String × JSValue)].find? (fun p => p.1 == f)) = none := by
    refine List.find?_eq_none.mpr (fun x hx => ?_)
    simp only [List.mem_singleton] at hx
    subst hx
    simp [Ne.symm h]
  rw [hk]
  cases body.find? (fun p => p.1 == f) <;> rfl

theorem getField_pickFields (body : Body) (f : String)
    (hf : f ∈ REQUIRED_FIELDS) :
    getField (pickFields body REQUIRED_FIELDS) f = getField body f := by
  simp only [REQUIRED_FIELDS, List.mem_cons, List.mem_singleton,
    List.not_mem_nil, or_false] at hf
  cases h1 : getField body "name" <;> cases h2 : getField body "price" <;>
    cases h3 : getField body "category" <;>
      rcases hf with hf | hf | hf <;> subst hf <;>
        simp only [pickFields, REQUIRED_FIELDS, List.filterMap_cons,
          List.filterMap_nil, h1, h2, h3, Option.map_some, Option.map_none,
          Option.map_some', Option.map_none'] <;>
        simp [getField, List.find?_cons, h1, h2, h3]

theorem validateRequiredFields_checks (body : Body)
    (hmiss : REQUIRED_FIELDS.filter (fun f => isMissing body f) = []) :
    validateRequiredFields body =
      if !(isStringV (getField body "name")) then some nameErr
      else if !(isStringV (getField body "category")) then some categoryErr
      else if priceBad (getField body "price") then some priceErr
      else none := by
  unfold validateRequiredFields
  rw [hmiss]
  simp

theorem validateRequiredFields_none_present (body : Body)
    (h : validateRequiredFields body = none) :
    (∃ s, getField body "name" = some (.str s)) ∧
    (∃ s, getField body "category" = some (.str s)) ∧
    (∃ n, getField body "price" = some (.num n) ∧
      ((n == JNum.nan) || JNum.ltZero n) = false) := by
  have hmiss : REQUIRED_FIELDS.filter (fun f => isMissing body f) = [] := by
    cases hm : REQUIRED_FIELDS.filter (fun f => isMissing body f) with
    | nil => rfl
    | cons a l =>
      unfold validateRequiredFields at h
      rw [hm] at h
      simp at h
  rw [validateRequiredFields_checks body hmiss] at h
  have hn : isStringV (getField body "name") = true := by
    cases hx : isStringV (getField body "name")
    · rw [hx] at h; simp at h
    · rfl
  rw [hn] at h
  have hc : isStringV (getField body "category") = true := by
    cases hx : isStringV (getField body "category")
    · rw [hx] at h; simp at h
    · rfl
  rw [hc] at h
  have hp : priceBad (getField body "price") = false := by
    cases hx : priceBad (getField body "price")
    · rfl
    · rw [hx] at h; simp at h
  refine ⟨?_, ?_, ?_⟩
  · cases hg : getField body "name" with
    | none => rw [hg] at hn; simp [isStringV] at hn
    | some v =>
      cases v <;> rw [hg] at hn <;> simp [isStringV] at hn ⊢
  · cases hg : getField body "category" with
    | none => rw [hg] at hc; simp [isStringV] at hc
    | some v =>
      cases v <;> rw [hg] at hc <;> simp [isStringV] at hc ⊢
  · cases hg : getField body "price" with
    | none => rw [hg] at hp; simp [priceBad] at hp
    | some v =>
      cases v with
      | num n =>
        refine ⟨n, rfl, ?_⟩
        rw [hg] at hp
        simpa [priceBad] using hp
      | str s => rw [hg] at hp; simp [priceBad] at hp
      | jbool b => rw [hg] at hp; simp [priceBad] at hp
      | jnull => rw [hg] at hp; simp [priceBad] at hp
      | other => rw [hg] at hp; simp [priceBad] at hp

theorem validatePatchFields_unknown (body : Body) (k0 : String)
    (hmem : k0 ∈ body.map Prod.fst) (hk : PATCH_ALLOWED.contains k0 = false) :
    validatePatchFields body =
      some ⟨"Invalid fields in PATCH", none,
        some ((body.map (fun p => p.1)).filter
          (fun k => !(PATCH_ALLOWED.contains k))),
        some PATCH_ALLOWED⟩ := by
  unfold validatePatchFields
  have hmem' : k0 ∈ body.map (fun p => p.1) := hmem
  have hneb : body ≠ [] := by
    intro hb
    rw [hb] at hmem'
    simp at hmem'
  rw [if_neg (by simpa using hneb)]
  have hinvmem : k0 ∈ (body.map (fun p => p.1)).filter
      (fun k => !(PATCH_ALLOWED.contains k)) :=
    List.mem_filter.mpr ⟨hmem', by rw [hk]; rfl⟩
  rw [if_pos (List.length_pos.mpr (List.ne_nil_of_mem hinvmem))]

theorem validatePatchFields_checks (body : Body)
    (hall : ∀ x ∈ body.map Prod.fst, PATCH_ALLOWED.contains x = true)
    (hne : body ≠ []) :
    validatePatchFields body =
      if presentNotString body "name" then some nameErr
      else if presentNotString body "category" then some categoryErr
      else if patchPriceBad body then some priceErr
      else if presentNotString body "description" then some descriptionErr
      else none := by
  unfold validatePatchFields
  rw [if_neg (by simpa using hne)]
  have hinv : (body.map (fun p => p.1)).filter
      (fun k => !(PATCH_ALLOWED.contains k)) = [] :=
    List.filter_eq_nil_iff.mpr (fun a ha => by rw [hall a ha]; simp)
  rw [hinv]
  simp

theorem validatePatchFields_none_keys (body : Body)
    (h : validatePatchFields body = none) :
    ∀ x ∈ body.map Prod.fst, PATCH_ALLOWED.contains x = true := by
  intro x hx
  by_contra hc
  have hc2 : PATCH_ALLOWED.contains x = false := by
    revert hc
    cases PATCH_ALLOWED.contains x <;> simp
  rw [validatePatchFields_unknown body x hx hc2] at h
  exact Option.noConfusion h

theorem findOne_updateOne_found (store : Store) (id : String) (upd : Doc)
    (d0 : Doc) (hfound : store.findOne id = some d0) :
    (store.updateOne id upd).1.findOne id = some (applySet d0 upd) := by
  rw [Store.findOne_updateOne, hfound]
  rfl

/-! The claims. -/

/-- C6: for every get, full-replace, partial-update, or delete request
whose path identifier is malformed, the response is a 400 error, the
store is unchanged, and no persistence-gateway operation is invoked. -/
theorem C6_invalid_id_short_circuit (store : Store) (id : String)
    (body : Body) (now : Nat) (h : ObjectId.isValid id = false) :
    getItemById store id = ⟨⟨400, .errB invalidIdErr⟩, store, []⟩ ∧
    putItem store id body now = ⟨⟨400, .errB invalidIdErr⟩, store, []⟩ ∧
    patchItem store id body now = ⟨⟨400, .errB invalidIdErr⟩, store, []⟩ ∧
    deleteItem store id = ⟨⟨400, .errB invalidIdErr⟩, store, []⟩ := by
  unfold getItemById putItem patchItem deleteItem
  rw [h]
  simp

/-- Witness for C6 at the malformed identifier "abc". -/
theorem C6_invalid_id_short_circuit_witness :
    ObjectId.isValid "abc" = false ∧
    getItemById storeA "abc" = ⟨⟨400, .errB invalidIdErr⟩, storeA, []⟩ ∧
    putItem storeA "abc" bodyW 0 = ⟨⟨400, .errB invalidIdErr⟩, storeA, []⟩ ∧
    patchItem storeA "abc" bodyW 0 = ⟨⟨400, .errB invalidIdErr⟩, storeA, []⟩ ∧
    deleteItem storeA "abc" = ⟨⟨400, .errB invalidIdErr⟩, storeA, []⟩ :=
  ⟨by decide, C6_invalid_id_short_circuit storeA "abc" bodyW 0 (by decide)⟩

/-- C5: with a well-formed identifier, a partial update with an empty
body is rejected 400 with the EmptyPatch error, and a partial update
containing any key outside the allowed set is rejected 400 with the
UnknownFields error whose body lists exactly the offending keys together
with the allowed set; the store is untouched in both cases. -/
theorem C5_patch_empty_and_unknown (store : Store) (id : String) (now : Nat)
    (hid : ObjectId.isValid id = true) :
    patchItem store id [] now =
      ⟨⟨400, .errB ⟨"PATCH body cannot be empty", none, none, none⟩⟩,
        store, []⟩ ∧
    (∀ (body : Body) (k0 : String), k0 ∈ body.map Prod.fst →
      PATCH_ALLOWED.contains k0 = false →
      ∃ inv, patchItem store id body now =
          ⟨⟨400, .errB ⟨"Invalid fields in PATCH", none, some inv,
            some PATCH_ALLOWED⟩⟩, store, []⟩ ∧
        (∀ k, k ∈ inv ↔ k ∈ body.map Prod.fst ∧ k ∉ PATCH_ALLOWED)) := by
  constructor
  · unfold patchItem
    rw [hid]
    simp [validatePatchFields]
  · intro body k0 hmem hk
    refine ⟨(body.map (fun p => p.1)).filter (fun k => !(PATCH_ALLOWED.contains k)),
      ?_, ?_⟩
    · unfold patchItem
      rw [hid, validatePatchFields_unknown body k0 hmem hk]
      simp
    · intro k
      constructor
      · intro hkf
        obtain ⟨h1, h2⟩ := List.mem_filter.mp hkf
        exact ⟨h1, by simpa using h2⟩
      · rintro ⟨h1, h2⟩
        exact List.mem_filter.mpr ⟨h1, by simpa using h2⟩

/-- Witness for C5 at a valid 12-character identifier, with the empty
body and with a body carrying the unknown key "foo". -/
theorem C5_patch_empty_and_unknown_witness :
    ObjectId.isValid "aaaaaaaaaaaa" = true ∧
    patchItem storeA "aaaaaaaaaaaa" [] 0 =
      ⟨⟨400, .errB ⟨"PATCH body cannot be empty", none, none, none⟩⟩,
        storeA, []⟩ ∧
    (∀ (body : Body) (k0 : String), k0 ∈ body.map Prod.fst →
      PATCH_ALLOWED.contains k0 = false →
      ∃ inv, patchItem storeA "aaaaaaaaaaaa" body 0 =
          ⟨⟨400, .errB ⟨"Invalid fields in PATCH", none, some inv,
            some PATCH_ALLOWED⟩⟩, storeA, []⟩ ∧
        (∀ k, k ∈ inv ↔ k ∈ body.map Prod.fst ∧ k ∉ PATCH_ALLOWED)) :=
  ⟨by decide, C5_patch_empty_and_unknown storeA "aaaaaaaaaaaa" 0 (by decide)⟩

/-- C3 (counterexample): a create/replace body whose name and price are
both type-invalid is answered with the bare name error only — the
response carries no `missing`/`invalid` enumeration and does not mention
the equally invalid price. -/
theorem C3_first_type_error_counterexample :
    validateRequiredFields
        [("name", JSValue.num (JNum.fin 5)), ("category", JSValue.str "x"),
         ("price", JSValue.num (JNum.fin (-1)))] = some nameErr ∧
    priceBad (getField
        [("name", JSValue.num (JNum.fin 5)), ("category", JSValue.str "x"),
         ("price", JSValue.num (JNum.fin (-1)))] "price") = true ∧
    nameErr.missing = none ∧ nameErr.invalid = none := by
  refine ⟨?_, ?_, rfl, rfl⟩ <;> decide

/-- C3 (amended): the 400 body enumerates every missing required field
(exactly the required keys that are missing), but type-invalid fields are
reported one at a time — when nothing is missing, the first failing type
check of name, category, price, in that order, determines the whole
response body regardless of the later fields. -/
theorem C3_missing_enumerated (body : Body) :
    (REQUIRED_FIELDS.filter (fun f => isMissing body f) ≠ [] →
      validateRequiredFields body =
        some ⟨"Missing required fields",
          some (REQUIRED_FIELDS.filter (fun f => isMissing body f)),
          none, none⟩ ∧
      (∀ f, f ∈ REQUIRED_FIELDS.filter (fun f => isMissing body f) ↔
        f ∈ REQUIRED_FIELDS ∧ isMissing body f = true)) ∧
    (REQUIRED_FIELDS.filter (fun f => isMissing body f) = [] →
      isStringV (getField body "name") = false →
      validateRequiredFields body = some nameErr) ∧
    (REQUIRED_FIELDS.filter (fun f => isMissing body f) = [] →
      isStringV (getField body "name") = true →
      isStringV (getField body "category") = false →
      validateRequiredFields body = some categoryErr) ∧
    (REQUIRED_FIELDS.filter (fun f => isMissing body f) = [] →
      isStringV (getField body "name") = true →
      isStringV (getField body "category") = true →
      priceBad (getField body "price") = true →
      validateRequiredFields body = some priceErr) := by
  refine ⟨?_, ?_, ?_, ?_⟩
  · intro hne
    constructor
    · unfold validateRequiredFields
      rw [if_pos (List.length_pos.mpr hne)]
    · intro f
      exact List.mem_filter
  · intro hmiss hname
    rw [validateRequiredFields_checks body hmiss, hname]
    simp
  · intro hmiss hname hcat
    rw [validateRequiredFields_checks body hmiss, hname, hcat]
    simp
  · intro hmiss hname hcat hprice
    rw [validateRequiredFields_checks body hmiss, hname, hcat, hprice]
    simp

/-- Witness for C3 at a body missing price and category, and at three
all-fields-present bodies whose first type failure is name, category,
and price respectively. -/
theorem C3_missing_enumerated_witness :
    (REQUIRED_FIELDS.filter (fun f => isMissing [("name", JSValue.str "a")] f)
      ≠ [] ∧
    validateRequiredFields [("name", JSValue.str "a")] =
      some ⟨"Missing required fields",
        some (REQUIRED_FIELDS.filter
          (fun f => isMissing [("name", JSValue.str "a")] f)), none, none⟩ ∧
    (∀ f, f ∈ REQUIRED_FIELDS.filter
        (fun f => isMissing [("name", JSValue.str "a")] f) ↔
      f ∈ REQUIRED_FIELDS ∧ isMissing [("name", JSValue.str "a")] f = true)) ∧
    validateRequiredFields
        [("name", JSValue.num (JNum.fin 5)), ("category", JSValue.str "x"),
         ("price", JSValue.num (JNum.fin 2))] = some nameErr ∧
    validateRequiredFields
        [("name", JSValue.str "a"), ("category", JSValue.num (JNum.fin 5)),
         ("price", JSValue.num (JNum.fin 2))] = some categoryErr ∧
    validateRequiredFields
        [("name", JSValue.str "a"), ("category", JSValue.str "x"),
         ("price", JSValue.num (JNum.fin (-1)))] = some priceErr :=
  ⟨⟨by decide,
    ((C3_missing_enumerated [("name", JSValue.str "a")]).1 (by decide)).1,
    ((C3_missing_enumerated [("name", JSValue.str "a")]).1 (by decide)).2⟩,
    (C3_missing_enumerated
        [("name", JSValue.num (JNum.fin 5)), ("category", JSValue.str "x"),
         ("price", JSValue.num (JNum.fin 2))]).2.1 (by decide) (by decide),
    (C3_missing_enumerated
        [("name", JSValue.str "a"), ("category", JSValue.num (JNum.fin 5)),
         ("price", JSValue.num (JNum.fin 2))]).2.2.1 (by decide) (by decide)
      (by decide),
    (C3_missing_enumerated
        [("name", JSValue.str "a"), ("category", JSValue.str "x"),
         ("price", JSValue.num (JNum.fin (-1)))]).2.2.2 (by decide)
      (by decide) (by decide) (by decide)⟩

/-- C2 (counterexample): a price of positive infinity is not a finite
number, yet the create/replace validator accepts the body — the code
checks `Number.isNaN`, not `Number.isFinite`.  The same check accepts it
on partial update. -/
theorem C2_infinity_accepted_counterexample :
    validateRequiredFields
        [("name", JSValue.str "a"), ("price", JSValue.num JNum.posInf),
         ("category", JSValue.str "x")] = none ∧
    validatePatchFields [("price", JSValue.num JNum.posInf)] = none ∧
    JNum.isFinite JNum.posInf = false := by
  refine ⟨?_, ?_, rfl⟩ <;> decide

/-- C2 (amended): when every other per-field check passes and price is
present, validation succeeds iff the price is a number that is neither
NaN nor negative — NaN and negative numbers (including negative
infinity) are rejected with a 400 error, but positive infinity is
accepted although it is not finite.  Stated for the create/replace
validator and for the partial-update validator. -/
theorem C2_price_rule :
    (∀ (body : Body) (nm cat : String) (v : JSValue),
      getField body "name" = some (.str nm) → nm ≠ "" →
      getField body "category" = some (.str cat) → cat ≠ "" →
      getField body "price" = some v →
      (validateRequiredFields body = none ↔ priceAcceptable v)) ∧
    (∀ (body : Body) (v : JSValue),
      body ≠ [] →
      (∀ x ∈ body.map Prod.fst, PATCH_ALLOWED.contains x = true) →
      presentNotString body "name" = false →
      presentNotString body "category" = false →
      presentNotString body "description" = false →
      getField body "price" = some v →
      (validatePatchFields body = none ↔ priceAcceptable v)) := by
  constructor
  · intro body nm cat v hn hnm hc hcat hp
    constructor
    · intro h
      obtain ⟨_, _, n, hpn, hbad⟩ := validateRequiredFields_none_present body h
      rw [hp] at hpn
      obtain ⟨h1, h2⟩ := Bool.or_eq_false_iff.mp hbad
      refine ⟨n, by injection hpn, ?_, h2⟩
      intro hcn
      rw [hcn] at h1
      simp at h1
    · rintro ⟨n, rfl, hnan, hlt⟩
      have hmiss : REQUIRED_FIELDS.filter (fun f => isMissing body f) = [] := by
        refine List.filter_eq_nil_iff.mpr (fun a ha => ?_)
        simp only [REQUIRED_FIELDS, List.mem_cons, List.mem_singleton,
          List.not_mem_nil, or_false] at ha
        rcases ha with rfl | rfl | rfl
        · simp [isMissing, hn, hnm]
        · simp [isMissing, hp]
        · simp [isMissing, hc, hcat]
      rw [validateRequiredFields_checks body hmiss]
      have hnanb : (n == JNum.nan) = false := by
        cases hb : (n == JNum.nan)
        · rfl
        · exact absurd (by simpa using hb) hnan
      simp [hn, hc, isStringV, hp, priceBad, hnanb, hlt]
  · intro body v hne hall hn hc hd hp
    have hppb : patchPriceBad body = priceBad (some v) := by
      simp [patchPriceBad, hp]
    rw [validatePatchFields_checks body hall hne, hn, hc, hppb, hd]
    simp only [Bool.false_eq_true, if_false]
    cases v with
    | num n =>
      by_cases hb : ((n == JNum.nan) || JNum.ltZero n) = true
      · rw [if_pos (by simpa [priceBad] using hb)]
        constructor
        · intro h
          exact Option.noConfusion h
        · rintro ⟨n2, heq, hnan, hlt⟩
          injection heq with heq2
          subst heq2
          rcases Bool.or_eq_true_iff.mp hb with h1 | h1
          · exact absurd (by simpa using h1) hnan
          · rw [h1] at hlt
            exact Bool.noConfusion hlt
      · have hb2 : ((n == JNum.nan) || JNum.ltZero n) = false := by
          revert hb
          cases ((n == JNum.nan) || JNum.ltZero n) <;> simp
        obtain ⟨h1, h2⟩ := Bool.or_eq_false_iff.mp hb2
        rw [if_neg (by simp [priceBad, hb2])]
        constructor
        · intro _
          refine ⟨n, rfl, ?_, h2⟩
          intro hcn
          rw [hcn] at h1
          simp at h1
        · intro _
          rfl
    | str s =>
      rw [if_pos (show priceBad (some (JSValue.str s)) = true from rfl)]
      constructor
      · intro h
        exact Option.noConfusion h
      · rintro ⟨n2, heq, _, _⟩
        exact JSValue.noConfusion heq
    | jbool b =>
      rw [if_pos (show priceBad (some (JSValue.jbool b)) = true from rfl)]
      constructor
      · intro h
        exact Option.noConfusion h
      · rintro ⟨n2, heq, _, _⟩
        exact JSValue.noConfusion heq
    | jnull =>
      rw [if_pos (show priceBad (some JSValue.jnull) = true from rfl)]
      constructor
      · intro h
        exact Option.noConfusion h
      · rintro ⟨n2, heq, _, _⟩
        exact JSValue.noConfusion heq
    | other =>
      rw [if_pos (show priceBad (some JSValue.other) = true from rfl)]
      constructor
      · intro h
        exact Option.noConfusion h
      · rintro ⟨n2, heq, _, _⟩
        exact JSValue.noConfusion heq

/-- Witness for C2 at a create body with price 3 and at the patch body
with only price 3. -/
theorem C2_price_rule_witness :
    getField bodyW "price" = some (JSValue.num (JNum.fin 3)) ∧
    (validateRequiredFields bodyW = none ↔
      priceAcceptable (JSValue.num (JNum.fin 3))) ∧
    (validatePatchFields [("price", JSValue.num (JNum.fin 3))] = none ↔
      priceAcceptable (JSValue.num (JNum.fin 3))) :=
  ⟨by decide,
    C2_price_rule.1 bodyW "Widget" "tools" (JSValue.num (JNum.fin 3))
      (by decide) (by decide) (by decide) (by decide) (by decide),
    C2_price_rule.2 [("price", JSValue.num (JNum.fin 3))]
      (JSValue.num (JNum.fin 3)) (by decide) (by decide) (by decide)
      (by decide) (by decide) (by decide)⟩

/-- C4: every valid create, fetched back through the returned identifier,
yields a document whose createdAt equals its updatedAt and which echoes
the submitted name, price, category, and (non-null) description. -/
theorem C4_create_roundtrip (store : Store) (body : Body) (now : Nat)
    (newId : String)
    (hval : validateRequiredFields (pickFields body REQUIRED_FIELDS) = none)
    (hfresh : store.findOne newId = none) :
    (postItems store body now newId).resp =
      ⟨201, .createdB "Item created" newId⟩ ∧
    ∃ d, (postItems store body now newId).store.findOne newId = some d ∧
      (∃ t, lookupDoc d "createdAt" = some (.date t) ∧
        lookupDoc d "updatedAt" = some (.date t)) ∧
      lookupDoc d "name" = (getField body "name").map DocVal.js ∧
      lookupDoc d "price" = (getField body "price").map DocVal.js ∧
      lookupDoc d "category" = (getField body "category").map DocVal.js ∧
      (∀ v, getField body "description" = some v → v ≠ JSValue.jnull →
        lookupDoc d "description" = some (DocVal.js v)) := by
  obtain ⟨⟨ns, hns⟩, ⟨cs, hcs⟩, ⟨n, hpn, _⟩⟩ :=
    validateRequiredFields_none_present _ hval
  rw [getField_pickFields body "name" (by simp [REQUIRED_FIELDS])] at hns
  rw [getField_pickFields body "category" (by simp [REQUIRED_FIELDS])] at hcs
  rw [getField_pickFields body "price" (by simp [REQUIRED_FIELDS])] at hpn
  have hred : postItems store body now newId =
      ⟨⟨201, .createdB "Item created" newId⟩,
        store.insertOne newId
          [("name", DocVal.js ((getField body "name").getD JSValue.jnull)),
           ("price", DocVal.js ((getField body "price").getD JSValue.jnull)),
           ("category",
             DocVal.js ((getField body "category").getD JSValue.jnull)),
           ("description",
             DocVal.js (descOrEmpty (getField body "description"))),
           ("createdAt", DocVal.date now), ("updatedAt", DocVal.date now)],
        [.insertOne]⟩ := by
    unfold postItems
    rw [hval]
  rw [hred]
  refine ⟨rfl, _, findOne_insertOne_fresh _ _ _ hfresh, ⟨now, ?_, ?_⟩,
    ?_, ?_, ?_, ?_⟩
  · simp [lookupDoc, List.find?_cons]
  · simp [lookupDoc, List.find?_cons]
  · simp [lookupDoc, List.find?_cons, hns]
  · simp [lookupDoc, List.find?_cons, hpn]
  · simp [lookupDoc, List.find?_cons, hcs]
  · intro v hv hvn
    have : descOrEmpty (getField body "description") = v := by
      rw [hv]
      cases v <;> simp [descOrEmpty]
      exact absurd rfl hvn
    simp [lookupDoc, List.find?_cons, this]

/-- Witness for C4: creating bodyW in the empty store under identifier
"aaaaaaaaaaaa". -/
theorem C4_create_roundtrip_witness :
    validateRequiredFields (pickFields bodyW REQUIRED_FIELDS) = none ∧
    (Store.mk []).findOne "aaaaaaaaaaaa" = none ∧
    ((postItems (Store.mk []) bodyW 7 "aaaaaaaaaaaa").resp =
      ⟨201, .createdB "Item created" "aaaaaaaaaaaa"⟩ ∧
    ∃ d, (postItems (Store.mk []) bodyW 7 "aaaaaaaaaaaa").store.findOne
        "aaaaaaaaaaaa" = some d ∧
      (∃ t, lookupDoc d "createdAt" = some (.date t) ∧
        lookupDoc d "updatedAt" = some (.date t)) ∧
      lookupDoc d "name" = (getField bodyW "name").map DocVal.js ∧
      lookupDoc d "price" = (getField bodyW "price").map DocVal.js ∧
      lookupDoc d "category" = (getField bodyW "category").map DocVal.js ∧
      (∀ v, getField bodyW "description" = some v → v ≠ JSValue.jnull →
        lookupDoc d "description" = some (DocVal.js v))) :=
  ⟨by decide, by decide,
    C4_create_roundtrip (Store.mk []) bodyW 7 "aaaaaaaaaaaa"
      (by decide) (by decide)⟩

/-- C7: a successful full replace and a successful partial update of an
existing item leave the stored createdAt unchanged; among the timestamp
fields only updatedAt is written (set to the request clock). -/
theorem C7_createdAt_preserved (store : Store) (id : String) (body : Body)
    (now : Nat) (d0 : Doc) (hid : ObjectId.isValid id = true)
    (hfound : store.findOne id = some d0) :
    (validateRequiredFields (pickFields body REQUIRED_FIELDS) = none →
      (putItem store id body now).resp = ⟨200, .msgB "Item fully updated"⟩ ∧
      ∃ d, (putItem store id body now).store.findOne id = some d ∧
        lookupDoc d "createdAt" = lookupDoc d0 "createdAt" ∧
        lookupDoc d "updatedAt" = some (.date now)) ∧
    (validatePatchFields body = none →
      (patchItem store id body now).resp =
        ⟨200, .msgB "Item partially updated"⟩ ∧
      ∃ d, (patchItem store id body now).store.findOne id = some d ∧
        lookupDoc d "createdAt" = lookupDoc d0 "createdAt" ∧
        lookupDoc d "updatedAt" = some (.date now)) := by
  have hmatch : ∀ upd : Doc, (store.updateOne id upd).2 = 1 := by
    intro upd
    rw [Store.updateOne_matched, hfound]
    rfl
  constructor
  · intro hval
    have hred : putItem store id body now =
        ⟨⟨200, .msgB "Item fully updated"⟩,
          (store.updateOne id
            [("name", DocVal.js ((getField body "name").getD JSValue.jnull)),
             ("price", DocVal.js ((getField body "price").getD JSValue.jnull)),
             ("category",
               DocVal.js ((getField body "category").getD JSValue.jnull)),
             ("description",
               DocVal.js (descOrEmpty (getField body "description"))),
             ("updatedAt", DocVal.date now)]).1,
          [.updateOne id]⟩ := by
      unfold putItem
      rw [hid, hval]
      simp [hmatch]
    rw [hred]
    refine ⟨rfl, applySet d0 _,
      findOne_updateOne_found store id _ d0 hfound, ?_, ?_⟩
    · rw [show applySet d0
          [("name", DocVal.js ((getField body "name").getD JSValue.jnull)),
           ("price", DocVal.js ((getField body "price").getD JSValue.jnull)),
           ("category",
             DocVal.js ((getField body "category").getD JSValue.jnull)),
           ("description",
             DocVal.js (descOrEmpty (getField body "description"))),
           ("updatedAt", DocVal.date now)] =
          setField (applySet d0
            [("name", DocVal.js ((getField body "name").getD JSValue.jnull)),
             ("price", DocVal.js ((getField body "price").getD JSValue.jnull)),
             ("category",
               DocVal.js ((getField body "category").getD JSValue.jnull)),
             ("description",
               DocVal.js (descOrEmpty (getField body "description")))])
            "updatedAt" (DocVal.date now) from rfl]
      rw [lookupDoc_setField_ne _ _ _ _ (by decide)]
      refine lookupDoc_applySet_not_mem _ _ _ (fun kv hkv => ?_)
      simp only [List.mem_cons, List.mem_singleton, List.not_mem_nil,
        or_false] at hkv
      rcases hkv with rfl | rfl | rfl | rfl
      · simp
      · simp
      · simp
      · simp
    · exact lookupDoc_setField_self _ _ _
  · intro hval
    have hred : patchItem store id body now =
        ⟨⟨200, .msgB "Item partially updated"⟩,
          (store.updateOne id
            (body.map (fun p => (p.1, DocVal.js p.2)) ++
              [("updatedAt", DocVal.date now)])).1,
          [.updateOne id]⟩ := by
      unfold patchItem
      rw [hid, hval]
      simp [hmatch]
    rw [hred]
    refine ⟨rfl, applySet d0 _,
      findOne_updateOne_found store id _ d0 hfound, ?_, ?_⟩
    · rw [applySet_append]
      rw [show applySet (applySet d0 (body.map (fun p => (p.1, DocVal.js p.2))))
          [("updatedAt", DocVal.date now)] =
          setField (applySet d0 (body.map (fun p => (p.1, DocVal.js p.2))))
            "updatedAt" (DocVal.date now) from rfl]
      rw [lookupDoc_setField_ne _ _ _ _ (by decide)]
      refine lookupDoc_applySet_not_mem _ _ _ (fun kv hkv => ?_)
      obtain ⟨p, hp, rfl⟩ := List.mem_map.mp hkv
      have hall := validatePatchFields_none_keys body hval p.1
        (List.mem_map_of_mem _ hp)
      intro hc
      rw [hc] at hall
      simp [PATCH_ALLOWED] at hall
    · rw [applySet_append]
      exact lookupDoc_setField_self _ _ _

/-- Witness for C7: replacing and patching the stored document of
storeA. -/
theorem C7_createdAt_preserved_witness :
    ObjectId.isValid "aaaaaaaaaaaa" = true ∧
    storeA.findOne "aaaaaaaaaaaa" = some docB1 ∧
    validateRequiredFields (pickFields bodyW REQUIRED_FIELDS) = none ∧
    validatePatchFields [("price", JSValue.num (JNum.fin 9))] = none ∧
    ((putItem storeA "aaaaaaaaaaaa" bodyW 3).resp =
        ⟨200, .msgB "Item fully updated"⟩ ∧
      ∃ d, (putItem storeA "aaaaaaaaaaaa" bodyW 3).store.findOne
          "aaaaaaaaaaaa" = some d ∧
        lookupDoc d "createdAt" = lookupDoc docB1 "createdAt" ∧
        lookupDoc d "updatedAt" = some (.date 3)) ∧
    ((patchItem storeA "aaaaaaaaaaaa"
          [("price", JSValue.num (JNum.fin 9))] 3).resp =
        ⟨200, .msgB "Item partially updated"⟩ ∧
      ∃ d, (patchItem storeA "aaaaaaaaaaaa"
            [("price", JSValue.num (JNum.fin 9))] 3).store.findOne
          "aaaaaaaaaaaa" = some d ∧
        lookupDoc d "createdAt" = lookupDoc docB1 "createdAt" ∧
        lookupDoc d "updatedAt" = some (.date 3)) :=
  ⟨by decide, by decide, by decide, by decide,
    (C7_createdAt_preserved storeA "aaaaaaaaaaaa" bodyW 3 docB1
      (by decide) (by decide)).1 (by decide),
    (C7_createdAt_preserved storeA "aaaaaaaaaaaa"
      [("price", JSValue.num (JNum.fin 9))] 3 docB1
      (by decide) (by decide)).2 (by decide)⟩

/-- C8: delete is not idempotent in status — with a well-formed
identifier naming an existing item (identifiers are unique in the
store), the first delete answers 204 with an empty body and the
immediately repeated delete answers 404. -/
theorem C8_delete_not_idempotent (store : Store) (id : String) (d0 : Doc)
    (hid : ObjectId.isValid id = true)
    (hnodup : (store.docs.map Prod.fst).Nodup)
    (hfound : store.findOne id = some d0) :
    (deleteItem store id).resp = ⟨204, .emptyB⟩ ∧
    (deleteItem (deleteItem store id).store id).resp =
      ⟨404, .errB notFoundErr⟩ := by
  have hcount : (store.deleteOne id).2 = 1 := by
    rw [Store.deleteOne_count, hfound]
    rfl
  have hred : deleteItem store id =
      ⟨⟨204, .emptyB⟩, (store.deleteOne id).1, [.deleteOne id]⟩ := by
    unfold deleteItem
    rw [hid]
    simp [hcount]
  rw [hred]
  refine ⟨rfl, ?_⟩
  have hgone : ((store.deleteOne id).1).findOne id = none :=
    Store.findOne_deleteOne_nodup store id hnodup
  have hcount2 : ((store.deleteOne id).1.deleteOne id).2 = 0 := by
    rw [Store.deleteOne_count, hgone]
    rfl
  unfold deleteItem
  rw [hid]
  simp [hcount2]

/-- Witness for C8: deleting the only document of storeA twice. -/
theorem C8_delete_not_idempotent_witness :
    ObjectId.isValid "aaaaaaaaaaaa" = true ∧
    (storeA.docs.map Prod.fst).Nodup ∧
    storeA.findOne "aaaaaaaaaaaa" = some docB1 ∧
    (deleteItem storeA "aaaaaaaaaaaa").resp = ⟨204, .emptyB⟩ ∧
    (deleteItem (deleteItem storeA "aaaaaaaaaaaa").store
        "aaaaaaaaaaaa").resp = ⟨404, .errB notFoundErr⟩ :=
  ⟨by decide, by decide, by decide,
    C8_delete_not_idempotent storeA "aaaaaaaaaaaa" docB1
      (by decide) (by decide) (by decide)⟩

/-- C9: create and full replace never type-check the description — any
value passes and the non-null value is persisted verbatim — while
partial update rejects a present non-string description with a 400
error and leaves the store untouched. -/
theorem C9_description_untyped :
    (∀ (store : Store) (body : Body) (now : Nat) (newId : String)
      (v : JSValue),
      validateRequiredFields (pickFields body REQUIRED_FIELDS) = none →
      getField body "description" = some v →
      (postItems store body now newId).resp.status = 201 ∧
      (v ≠ JSValue.jnull →
        ∃ d, (postItems store body now newId).store.docs =
            store.docs ++ [(newId, d)] ∧
          lookupDoc d "description" = some (DocVal.js v))) ∧
    (∀ (store : Store) (id : String) (body : Body) (now : Nat) (v : JSValue)
      (d0 : Doc),
      ObjectId.isValid id = true →
      validateRequiredFields (pickFields body REQUIRED_FIELDS) = none →
      store.findOne id = some d0 →
      getField body "description" = some v → v ≠ JSValue.jnull →
      (putItem store id body now).resp.status = 200 ∧
      ∃ d, (putItem store id body now).store.findOne id = some d ∧
        lookupDoc d "description" = some (DocVal.js v)) ∧
    (∀ (store : Store) (id : String) (body : Body) (now : Nat) (v : JSValue),
      ObjectId.isValid id = true →
      (∀ x ∈ body.map Prod.fst, PATCH_ALLOWED.contains x = true) →
      presentNotString body "name" = false →
      presentNotString body "category" = false →
      patchPriceBad body = false →
      getField body "description" = some v →
      isStringV (some v) = false →
      patchItem store id body now =
        ⟨⟨400, .errB descriptionErr⟩, store, []⟩) := by
  refine ⟨?_, ?_, ?_⟩
  · intro store body now newId v hval hv
    have hred : postItems store body now newId =
        ⟨⟨201, .createdB "Item created" newId⟩,
          store.insertOne newId
            [("name", DocVal.js ((getField body "name").getD JSValue.jnull)),
             ("price", DocVal.js ((getField body "price").getD JSValue.jnull)),
             ("category",
               DocVal.js ((getField body "category").getD JSValue.jnull)),
             ("description",
               DocVal.js (descOrEmpty (getField body "description"))),
             ("createdAt", DocVal.date now), ("updatedAt", DocVal.date now)],
          [.insertOne]⟩ := by
      unfold postItems
      rw [hval]
    rw [hred]
    refine ⟨rfl, fun hvn => ⟨_, rfl, ?_⟩⟩
    have hde : descOrEmpty (getField body "description") = v := by
      rw [hv]
      cases v <;> simp [descOrEmpty]
      exact absurd rfl hvn
    simp [lookupDoc, List.find?_cons, hde]
  · intro store id body now v d0 hid hval hfound hv hvn
    have hmatch : ∀ upd : Doc, (store.updateOne id upd).2 = 1 := by
      intro upd
      rw [Store.updateOne_matched, hfound]
      rfl
    have hred : putItem store id body now =
        ⟨⟨200, .msgB "Item fully updated"⟩,
          (store.updateOne id
            [("name", DocVal.js ((getField body "name").getD JSValue.jnull)),
             ("price", DocVal.js ((getField body "price").getD JSValue.jnull)),
             ("category",
               DocVal.js ((getField body "category").getD JSValue.jnull)),
             ("description",
               DocVal.js (descOrEmpty (getField body "description"))),
             ("updatedAt", DocVal.date now)]).1,
          [.updateOne id]⟩ := by
      unfold putItem
      rw [hid, hval]
      simp [hmatch]
    rw [hred]
    refine ⟨rfl, applySet d0 _,
      findOne_updateOne_found store id _ d0 hfound, ?_⟩
    have hde : descOrEmpty (getField body "description") = v := by
      rw [hv]
      cases v <;> simp [descOrEmpty]
      exact absurd rfl hvn
    rw [show applySet d0
        [("name", DocVal.js ((getField body "name").getD JSValue.jnull)),
         ("price", DocVal.js ((getField body "price").getD JSValue.jnull)),
         ("category",
           DocVal.js ((getField body "category").getD JSValue.jnull)),
         ("description",
           DocVal.js (descOrEmpty (getField body "description"))),
         ("updatedAt", DocVal.date now)] =
        setField (setField (applySet d0
          [("name", DocVal.js ((getField body "name").getD JSValue.jnull)),
           ("price", DocVal.js ((getField body "price").getD JSValue.jnull)),
           ("category",
             DocVal.js ((getField body "category").getD JSValue.jnull))])
          "description" (DocVal.js (descOrEmpty (getField body "description"))))
          "updatedAt" (DocVal.date now) from rfl]
    rw [lookupDoc_setField_ne _ _ _ _ (by decide), lookupDoc_setField_self,
      hde]
  · intro store id body now v hid hall hn hc hpb hv hvs
    have hne : body ≠ [] := by
      intro hb
      rw [hb] at hv
      simp [getField] at hv
    have hd : presentNotString body "description" = true := by
      simp [presentNotString, hv, hvs]
    have hvp : validatePatchFields body = some descriptionErr := by
      rw [validatePatchFields_checks body hall hne, hn, hc, hpb, hd]
      simp
    unfold patchItem
    rw [hid, hvp]
    simp

/-- Witness for C9: a numeric description is accepted and persisted by
create and replace, and rejected by partial update. -/
theorem C9_description_untyped_witness :
    ((postItems storeA (("description", JSValue.num (JNum.fin 4)) :: bodyW)
        5 "bbbbbbbbbbbb").resp.status = 201 ∧
      (JSValue.num (JNum.fin 4) ≠ JSValue.jnull →
        ∃ d, (postItems storeA
            (("description", JSValue.num (JNum.fin 4)) :: bodyW)
            5 "bbbbbbbbbbbb").store.docs = storeA.docs ++ [("bbbbbbbbbbbb", d)] ∧
          lookupDoc d "description" =
            some (DocVal.js (JSValue.num (JNum.fin 4))))) ∧
    ((putItem storeA "aaaaaaaaaaaa"
        (("description", JSValue.num (JNum.fin 4)) :: bodyW) 5).resp.status =
      200 ∧
      ∃ d, (putItem storeA "aaaaaaaaaaaa"
          (("description", JSValue.num (JNum.fin 4)) :: bodyW) 5).store.findOne
          "aaaaaaaaaaaa" = some d ∧
        lookupDoc d "description" =
          some (DocVal.js (JSValue.num (JNum.fin 4)))) ∧
    patchItem storeA "aaaaaaaaaaaa"
        [("description", JSValue.num (JNum.fin 4))] 5 =
      ⟨⟨400, .errB descriptionErr⟩, storeA, []⟩ :=
  ⟨C9_description_untyped.1 storeA
      (("description", JSValue.num (JNum.fin 4)) :: bodyW) 5 "bbbbbbbbbbbb"
      (JSValue.num (JNum.fin 4)) (by decide) (by decide),
    C9_description_untyped.2.1 storeA "aaaaaaaaaaaa"
      (("description", JSValue.num (JNum.fin 4)) :: bodyW) 5
      (JSValue.num (JNum.fin 4)) docB1 (by decide) (by decide) (by decide)
      (by decide) (by decide),
    C9_description_untyped.2.2 storeA "aaaaaaaaaaaa"
      [("description", JSValue.num (JNum.fin 4))] 5
      (JSValue.num (JNum.fin 4)) (by decide) (by decide) (by decide)
      (by decide) (by decide) (by decide) (by decide)⟩

/-- C10: create and full replace silently ignore body keys outside the
item schema — appending such a key to the body changes nothing in the
handler outcome, and the persisted create document carries exactly the
schema fields — whereas partial update rejects the extra key with the
UnknownFields error listing it. -/
theorem C10_extra_keys_ignored :
    (∀ (store : Store) (body : Body) (now : Nat) (newId k : String)
      (v : JSValue),
      k ∉ (["name", "price", "category", "description"] : List String) →
      postItems store (body ++ [(k, v)]) now newId =
        postItems store body now newId) ∧
    (∀ (store : Store) (id : String) (body : Body) (now : Nat)
      (k : String) (v : JSValue),
      k ∉ (["name", "price", "category", "description"] : List String) →
      putItem store id (body ++ [(k, v)]) now = putItem store id body now) ∧
    (∀ (store : Store) (body : Body) (now : Nat) (newId : String),
      validateRequiredFields (pickFields body REQUIRED_FIELDS) = none →
      ∃ d, (postItems store body now newId).store.docs =
          store.docs ++ [(newId, d)] ∧
        d.map Prod.fst =
          ["name", "price", "category", "description",
           "createdAt", "updatedAt"]) ∧
    (∀ (body : Body) (k : String) (v : JSValue),
      PATCH_ALLOWED.contains k = false →
      ∃ inv, validatePatchFields (body ++ [(k, v)]) =
          some ⟨"Invalid fields in PATCH", none, some inv,
            some PATCH_ALLOWED⟩ ∧ k ∈ inv) := by
  have hne : ∀ (k : String),
      k ∉ (["name", "price", "category", "description"] : List String) →
      "name" ≠ k ∧ "price" ≠ k ∧ "category" ≠ k ∧ "description" ≠ k := by
    intro k hk
    refine ⟨?_, ?_, ?_, ?_⟩ <;> intro hc <;> exact hk (by rw [← hc]; simp)
  refine ⟨?_, ?_, ?_, ?_⟩
  · intro store body now newId k v hk
    obtain ⟨h1, h2, h3, h4⟩ := hne k hk
    have hn := getField_append_ne body k "name" v h1
    have hp := getField_append_ne body k "price" v h2
    have hc := getField_append_ne body k "category" v h3
    have hd := getField_append_ne body k "description" v h4
    unfold postItems
    have hpick : pickFields (body ++ [(k, v)]) REQUIRED_FIELDS =
        pickFields body REQUIRED_FIELDS := by
      simp only [pickFields, REQUIRED_FIELDS, List.filterMap_cons,
        List.filterMap_nil, hn, hp, hc]
    rw [hpick, hn, hp, hc, hd]
  · intro store id body now k v hk
    obtain ⟨h1, h2, h3, h4⟩ := hne k hk
    have hn := getField_append_ne body k "name" v h1
    have hp := getField_append_ne body k "price" v h2
    have hc := getField_append_ne body k "category" v h3
    have hd := getField_append_ne body k "description" v h4
    unfold putItem
    have hpick : pickFields (body ++ [(k, v)]) REQUIRED_FIELDS =
        pickFields body REQUIRED_FIELDS := by
      simp only [pickFields, REQUIRED_FIELDS, List.filterMap_cons,
        List.filterMap_nil, hn, hp, hc]
    rw [hpick, hn, hp, hc, hd]
  · intro store body now newId hval
    have hred : postItems store body now newId =
        ⟨⟨201, .createdB "Item created" newId⟩,
          store.insertOne newId
            [("name", DocVal.js ((getField body "name").getD JSValue.jnull)),
             ("price", DocVal.js ((getField body "price").getD JSValue.jnull)),
             ("category",
               DocVal.js ((getField body "category").getD JSValue.jnull)),
             ("description",
               DocVal.js (descOrEmpty (getField body "description"))),
             ("createdAt", DocVal.date now), ("updatedAt", DocVal.date now)],
          [.insertOne]⟩ := by
      unfold postItems
      rw [hval]
    rw [hred]
    exact ⟨_, rfl, rfl⟩
  · intro body k v hk
    have hmem : k ∈ (body ++ [(k, v)]).map Prod.fst := by simp
    refine ⟨_, validatePatchFields_unknown _ k hmem hk, ?_⟩
    refine List.mem_filter.mpr ⟨by simp, ?_⟩
    rw [hk]
    rfl

/-- Witness for C10 at the extra key "foo". -/
theorem C10_extra_keys_ignored_witness :
    "foo" ∉ (["name", "price", "category", "description"] : List String) ∧
    postItems storeA (bodyW ++ [("foo", JSValue.str "z")]) 5 "bbbbbbbbbbbb" =
      postItems storeA bodyW 5 "bbbbbbbbbbbb" ∧
    putItem storeA "aaaaaaaaaaaa" (bodyW ++ [("foo", JSValue.str "z")]) 5 =
      putItem storeA "aaaaaaaaaaaa" bodyW 5 ∧
    (∃ d, (postItems storeA bodyW 5 "bbbbbbbbbbbb").store.docs =
        storeA.docs ++ [("bbbbbbbbbbbb", d)] ∧
      d.map Prod.fst =
        ["name", "price", "category", "description",
         "createdAt", "updatedAt"]) ∧
    (∃ inv, validatePatchFields (bodyW ++ [("foo", JSValue.str "z")]) =
        some ⟨"Invalid fields in PATCH", none, some inv,
          some PATCH_ALLOWED⟩ ∧ "foo" ∈ inv) :=
  ⟨by decide,
    C10_extra_keys_ignored.1 storeA bodyW 5 "bbbbbbbbbbbb" "foo"
      (JSValue.str "z") (by decide),
    C10_extra_keys_ignored.2.1 storeA "aaaaaaaaaaaa" bodyW 5 "foo"
      (JSValue.str "z") (by decide),
    C10_extra_keys_ignored.2.2.1 storeA bodyW 5 "bbbbbbbbbbbb" (by decide),
    C10_extra_keys_ignored.2.2.2 bodyW "foo" (JSValue.str "z") (by decide)⟩

theorem numLe_total (a b : JNum) : numLe a b = true ∨ numLe b a = true := by
  cases a <;> cases b <;> simp [numLe]
  exact le_total _ _

theorem numLe_trans (a b c : JNum) (h1 : numLe a b = true)
    (h2 : numLe b c = true) : numLe a c = true := by
  cases a <;> cases b <;> cases c <;> simp_all [numLe]
  exact le_trans h1 h2

theorem lookupDoc_filter (d : Doc) (k : String) (pr : String × DocVal → Bool)
    (h : ∀ v, pr (k, v) = true) :
    lookupDoc (d.filter pr) k = lookupDoc d k := by
  induction d with
  | nil => rfl
  | cons hd tl ih =>
    obtain ⟨k1, v1⟩ := hd
    by_cases hk : (k1 == k) = true
    · have hke : k1 = k := by simpa using hk
      subst hke
      rw [List.filter_cons_of_pos (h v1)]
      simp [lookupDoc, List.find?_cons]
    · by_cases hp : pr (k1, v1) = true
      · rw [List.filter_cons_of_pos hp]
        simpa [lookupDoc, List.find?_cons, hk] using ih
      · rw [List.filter_cons_of_neg hp]
        rw [show lookupDoc ((k1, v1) :: tl) k = lookupDoc tl k from by
          simp [lookupDoc, List.find?_cons, hk]]
        exact ih

/-- C1 (counterexample): the items list endpoint ignores every query
parameter — requesting `category=a&minPrice=10&sort=price&fields=name,price`
against a store whose only item has category "t" and price 5 still
returns that item, with its identifier and category fields included, so
the claimed filtering/projection does not hold for every list request. -/
theorem C1_items_ignore_query_counterexample :
    (listItems storeA
        ⟨some "a", some "10", some "price", some "name,price"⟩).resp =
      ⟨200, .listB 1 [withId "aaaaaaaaaaaa" docB1]⟩ ∧
    lookupDoc (withId "aaaaaaaaaaaa" docB1) "category" =
      some (DocVal.js (JSValue.str "t")) ∧
    "t" ≠ "a" ∧
    lookupDoc (withId "aaaaaaaaaaaa" docB1) "price" =
      some (DocVal.js (JSValue.num (JNum.fin 5))) ∧
    (5 : ℚ) < 10 ∧
    lookupDoc (withId "aaaaaaaaaaaa" docB1) "_id" =
      some (DocVal.oid "aaaaaaaaaaaa") := by
  refine ⟨?_, ?_, ?_, ?_, ?_, ?_⟩ <;> decide

/-- C1 (amended): the legacy products list endpoint does satisfy the
property — for a store whose documents carry finite number prices,
querying `category=X&minPrice=10&sort=price&fields=name,price` returns
200 with products that each contain only the fields name and price (in
particular no identifier), each the projection of a stored document of
category X and price at least 10, sorted ascending by price.  The items
list endpoint ignores the query (see the counterexample). -/
theorem C1_products_filter_sort_project (store : Store) (X : String)
    (hX : X ≠ "")
    (hfin : ∀ p ∈ store.docs, ∃ q : ℚ,
      lookupDoc p.2 "price" = some (DocVal.js (JSValue.num (JNum.fin q)))) :
    (getProducts store
        ⟨some X, some "10", some "price", some "name,price"⟩).resp.status =
      200 ∧
    ∃ prods,
      (getProducts store
          ⟨some X, some "10", some "price", some "name,price"⟩).resp.body =
        .listB prods.length prods ∧
      (∀ d ∈ prods,
        (∀ kv ∈ d, kv.1 = "name" ∨ kv.1 = "price") ∧
        ∃ p ∈ store.docs,
          lookupDoc p.2 "category" = some (DocVal.js (JSValue.str X)) ∧
          (∃ q : ℚ, lookupDoc p.2 "price" =
              some (DocVal.js (JSValue.num (JNum.fin q))) ∧ 10 ≤ q) ∧
          d = projectDoc ["name", "price"] p.1 p.2) ∧
      prods.Pairwise (fun d1 d2 => ∀ q1 q2 : ℚ,
        lookupDoc d1 "price" = some (DocVal.js (JSValue.num (JNum.fin q1))) →
        lookupDoc d2 "price" = some (DocVal.js (JSValue.num (JNum.fin q2))) →
        q1 ≤ q2) := by
  have hXb : (X == "") = false := by
    cases hb : (X == "")
    · rfl
    · exact absurd (by simpa using hb) hX
  have hq : getProducts store
      ⟨some X, some "10", some "price", some "name,price"⟩ =
      ⟨⟨200, .listB
        ((List.insertionSort prodPriceLe
          (store.docs.filter
            (fun p => matchesFilter (some X) (some (JNum.fin 10)) p.2))).map
          (fun p => projectDoc ["name", "price"] p.1 p.2)).length
        ((List.insertionSort prodPriceLe
          (store.docs.filter
            (fun p => matchesFilter (some X) (some (JNum.fin 10)) p.2))).map
          (fun p => projectDoc ["name", "price"] p.1 p.2))⟩,
        store, [.findAll]⟩ := by
    unfold getProducts
    rw [show truthyQ (some X) = true from by simp [truthyQ, hXb]]
    rw [show truthyQ (some "10") = true from by decide]
    rw [show truthyQ (some "name,price") = true from by decide]
    rw [show jsNumber ((some "10").getD "") = JNum.fin 10 from by decide]
    rw [show splitComma ((some "name,price").getD "") = ["name", "price"]
      from by decide]
    rfl
  rw [hq]
  have hproj : ∀ d : Doc, projectDoc ["name", "price"] "" d =
      d.filter (fun p => (["name", "price"] : List String).contains p.1) :=
    fun d => rfl
  refine ⟨rfl, _, rfl, ?_, ?_⟩
  · intro d hd
    obtain ⟨p, hpsort, rfl⟩ := List.mem_map.mp hd
    have hpflt : p ∈ store.docs.filter
        (fun p => matchesFilter (some X) (some (JNum.fin 10)) p.2) :=
      (List.mem_insertionSort _).mp hpsort
    obtain ⟨hpdocs, hmat⟩ := List.mem_filter.mp hpflt
    obtain ⟨hcat, hprice⟩ := Bool.and_eq_true_iff.mp hmat
    have hcat2 : lookupDoc p.2 "category" =
        some (DocVal.js (JSValue.str X)) := by
      simpa using hcat
    obtain ⟨q, hq2⟩ := hfin p hpdocs
    rw [hq2] at hprice
    have hge : (10 : ℚ) ≤ q := by
      have := hprice
      simp only [numGe] at this
      exact of_decide_eq_true this
    refine ⟨?_, p, hpdocs, hcat2, ⟨q, hq2, hge⟩, rfl⟩
    intro kv hkv
    have hkv2 : kv ∈ p.2.filter
        (fun x => (["name", "price"] : List String).contains x.1) := hkv
    obtain ⟨_, hmem⟩ := List.mem_filter.mp hkv2
    have : kv.1 ∈ (["name", "price"] : List String) := by
      simpa using hmem
    simpa using this
  · rw [List.pairwise_map]
    have hsorted : List.Pairwise prodPriceLe
        (List.insertionSort prodPriceLe
          (store.docs.filter
            (fun p => matchesFilter (some X) (some (JNum.fin 10)) p.2))) := by
      haveI : IsTotal (String × Doc) prodPriceLe :=
        ⟨fun a b => numLe_total _ _⟩
      haveI : IsTrans (String × Doc) prodPriceLe :=
        ⟨fun a b c => numLe_trans _ _ _⟩
      exact List.sorted_insertionSort prodPriceLe _
    refine List.Pairwise.imp_of_mem ?_ hsorted
    intro a b ha hb hle
    intro q1 q2 h1 h2
    have hadocs : a ∈ store.docs :=
      (List.mem_filter.mp ((List.mem_insertionSort _).mp ha)).1
    have hbdocs : b ∈ store.docs :=
      (List.mem_filter.mp ((List.mem_insertionSort _).mp hb)).1
    have hpa : lookupDoc (projectDoc ["name", "price"] a.1 a.2) "price" =
        lookupDoc a.2 "price" :=
      lookupDoc_filter a.2 "price" _ (fun v => rfl)
    have hpb : lookupDoc (projectDoc ["name", "price"] b.1 b.2) "price" =
        lookupDoc b.2 "price" :=
      lookupDoc_filter b.2 "price" _ (fun v => rfl)
    rw [hpa] at h1
    rw [hpb] at h2
    have hka : priceKey a.2 = JNum.fin q1 := by
      simp [priceKey, h1]
    have hkb : priceKey b.2 = JNum.fin q2 := by
      simp [priceKey, h2]
    have := hle
    unfold prodPriceLe at this
    rw [hka, hkb] at this
    simp only [numLe] at this
    exact of_decide_eq_true this

/-- Witness for C1 at storeP (three products: two of category "t" with
prices 5 and 15, one of category "u") and the query category=t,
minPrice=10, sort=price, fields=name,price. -/
theorem C1_products_filter_sort_project_witness :
    ("t" : String) ≠ "" ∧
    (∀ p ∈ storeP.docs, ∃ q : ℚ,
      lookupDoc p.2 "price" = some (DocVal.js (JSValue.num (JNum.fin q)))) ∧
    ((getProducts storeP
        ⟨some "t", some "10", some "price", some "name,price"⟩).resp.status =
      200 ∧
    ∃ prods,
      (getProducts storeP
          ⟨some "t", some "10", some "price", some "name,price"⟩).resp.body =
        .listB prods.length prods ∧
      (∀ d ∈ prods,
        (∀ kv ∈ d, kv.1 = "name" ∨ kv.1 = "price") ∧
        ∃ p ∈ storeP.docs,
          lookupDoc p.2 "category" = some (DocVal.js (JSValue.str "t")) ∧
          (∃ q : ℚ, lookupDoc p.2 "price" =
              some (DocVal.js (JSValue.num (JNum.fin q))) ∧ 10 ≤ q) ∧
          d = projectDoc ["name", "price"] p.1 p.2) ∧
      prods.Pairwise (fun d1 d2 => ∀ q1 q2 : ℚ,
        lookupDoc d1 "price" = some (DocVal.js (JSValue.num (JNum.fin q1))) →
        lookupDoc d2 "price" = some (DocVal.js (JSValue.num (JNum.fin q2))) →
        q1 ≤ q2)) := by
  have hfin : ∀ p ∈ storeP.docs, ∃ q : ℚ,
      lookupDoc p.2 "price" = some (DocVal.js (JSValue.num (JNum.fin q))) := by
    intro p hp
    simp only [storeP, List.mem_cons, List.not_mem_nil, or_false] at hp
    rcases hp with rfl | rfl | rfl
    · exact ⟨5, rfl⟩
    · exact ⟨15, rfl⟩
    · exact ⟨12, rfl⟩
  exact ⟨by decide, hfin,
    C1_products_filter_sort_project storeP "t" (by decide) hfin⟩
